import Mathlib

/-!
Verification of the gsau.gg price-comparison frontend against its
natural-language specification.

The TypeScript/JavaScript sources are shallowly embedded: prices (JS
floating-point numbers holding dollar amounts) are modelled as rationals,
`Math.round` as the floor of `x + 1/2`, optional/nullable JSON fields as
`Option`, JS objects as association lists, and the stable `Array.sort`
as a stable insertion sort.  The backend Resolver and Tracker (the
repository's `scripts/` directory) are not part of the sources; the few
definitions that depend on them are modelled from the specification and
marked as such in their doc comments.
-/

namespace GSAU

/-- Model of JS `Math.round`: round half toward positive infinity. -/
def jsRound (q : ℚ) : ℤ := ⌊q + 1/2⌋

/-- Embeds `comparePrices` from `src/lib/utils/format.ts`: compares
`Math.round(a*100)` with `Math.round(b*100)` and returns -1, 0 or 1. -/
def comparePrices (a b : ℚ) : ℤ :=
  if jsRound (a * 100) < jsRound (b * 100) then -1
  else if jsRound (b * 100) < jsRound (a * 100) then 1
  else 0

/-- Embeds `pricesEqual` from `src/lib/utils/format.ts`:
`Math.round(a*100) === Math.round(b*100)`. -/
def pricesEqual (a b : ℚ) : Bool := jsRound (a * 100) == jsRound (b * 100)

/-! ### Data model (src/lib/data/types.ts and src/lib/data/schemas.ts)

Optional-and-nullable fields (`z.number().nullable().optional()`) are
`Option (Option _)`: `none` = key absent, `some none` = JSON `null`,
`some (some x)` = a value.  Required-nullable fields are a single
`Option`. -/

/-- Vendor entry of a product (`VendorSchema`). -/
structure Vendor where
  name : String
  price : ℚ
  regularPrice : Option (Option ℚ)
  url : String
  inStock : Bool
  sku : Option (Option String)
deriving DecidableEq, Repr

/-- Resolved cross-vendor product (`ProductSchema`). -/
structure Product where
  id : String
  title : String
  image : Option String
  category : String
  tags : List String
  vendors : List Vendor
  lowestPrice : ℚ
  inStock : Bool
deriving DecidableEq, Repr

/-- Products snapshot document (`ProductsDataSchema`). -/
structure ProductsData where
  lastUpdated : String
  storeCount : ℚ
  productCount : ℚ
  products : List Product
deriving DecidableEq, Repr

/-- Validated price-history point (`PricePointSchema`).  Note the schema
has exactly the six fields `t p rp s v prev`; there is no `stockPrev`. -/
structure PricePoint where
  t : ℚ
  p : ℚ
  rp : Option ℚ
  s : Option Bool
  v : Option String
  prev : Option ℚ
deriving DecidableEq, Repr

/-- Product price history entry (`ProductPriceHistorySchema`); the
`z.record` of vendor series is an association list. -/
structure ProductPriceHistory where
  vendors : List (String × List PricePoint)
  lowest : List PricePoint
deriving DecidableEq, Repr

/-- Tracker data document (`TrackerDataResponseSchema`). -/
structure TrackerDataResponse where
  lastUpdated : String
  history : List (String × ProductPriceHistory)
deriving DecidableEq, Repr

/-- Log level (`LogEntrySchema`'s `z.enum`). -/
inductive LogLevel where
  | info
  | warning
  | error
  | debug
deriving DecidableEq, Repr

/-- Log entry (`LogEntrySchema`). -/
structure LogEntry where
  time : String
  level : LogLevel
  message : String
deriving DecidableEq, Repr

/-- Filtered-product audit entry (`FilteredProductSchema`). -/
structure FilteredProduct where
  title : String
  reason : String
  keyword : String
  filterCategory : Option String
deriving DecidableEq, Repr

/-- Per-store run statistics (`StoreStatsSchema`). -/
structure StoreStats where
  name : String
  url : String
  platform : String
  fetched : ℚ
  filtered : ℚ
  final : ℚ
  inStock : ℚ
  outOfStock : ℚ
  duration : ℚ
  error : Option String
  cached_at : Option String
  logs : List LogEntry
  filteredProducts : Option (List FilteredProduct)
deriving DecidableEq, Repr

/-- Run statistics document (`StatsSchema`). -/
structure Stats where
  lastUpdated : String
  duration : ℚ
  stores : List StoreStats
deriving DecidableEq, Repr

/-- Item-level listing (`ItemSchema`). -/
structure Item where
  id : String
  storeId : String
  productId : String
  variantId : String
  title : String
  sku : Option String
  price : ℚ
  regularPrice : Option ℚ
  image : Option String
  url : String
  vendor : String
  category : String
  tags : List String
  inStock : Bool
deriving DecidableEq, Repr

/-- Items snapshot document (`ItemsDataSchema`). -/
structure ItemsData where
  lastUpdated : String
  items : List (String × Item)
deriving DecidableEq, Repr

/-- Item history document (`ItemHistoryDataSchema`). -/
structure ItemHistoryData where
  lastUpdated : String
  history : List (String × List PricePoint)
deriving DecidableEq, Repr

/-! ### JSON values and the zod validation layer (src/lib/data/schemas.ts)

A JSON value; objects are association lists of key/value pairs.  Zod's
`z.object` reads the declared keys by name and silently drops unknown
keys, which the parsers below reproduce via `getField` lookups. -/

inductive Json where
  | null : Json
  | bool : Bool → Json
  | num : ℚ → Json
  | str : String → Json
  | arr : List Json → Json
  | obj : List (String × Json) → Json

/-- Looks up a key in a JS object (first occurrence wins). -/
def getField : List (String × Json) → String → Option Json
  | [], _ => none
  | (k, v) :: rest, key => if k = key then some v else getField rest key

def asObj : Json → Option (List (String × Json))
  | Json.obj fs => some fs
  | _ => none

def asArr : Json → Option (List Json)
  | Json.arr l => some l
  | _ => none

def asStr : Json → Option String
  | Json.str s => some s
  | _ => none

def asNum : Json → Option ℚ
  | Json.num q => some q
  | _ => none

def asBool : Json → Option Bool
  | Json.bool b => some b
  | _ => none

/-- Required field of a given shape (`z.string()` etc.). -/
def reqField (fs : List (String × Json)) (key : String) (shape : Json → Option α) : Option α :=
  (getField fs key).bind shape

/-- Optional field (`.optional()`): an absent key parses to `none`. -/
def optField (fs : List (String × Json)) (key : String) (shape : Json → Option α) :
    Option (Option α) :=
  match getField fs key with
  | none => some none
  | some j => (shape j).map some

/-- Required nullable field (`.nullable()`): `null` parses to `none`. -/
def nullField (fs : List (String × Json)) (key : String) (shape : Json → Option α) :
    Option (Option α) :=
  match getField fs key with
  | none => none
  | some Json.null => some none
  | some j => (shape j).map some

/-- Optional nullable field (`.nullable().optional()`): absent parses to
`none`, `null` to `some none`, a value to `some (some _)`. -/
def optNullField (fs : List (String × Json)) (key : String) (shape : Json → Option α) :
    Option (Option (Option α)) :=
  match getField fs key with
  | none => some none
  | some Json.null => some (some none)
  | some j => (shape j).map (fun x => some (some x))

/-- Parses every element of a JSON array (`z.array`). -/
def parseList (shape : Json → Option α) : List Json → Option (List α)
  | [] => some []
  | j :: rest => do
    let x ← shape j
    let xs ← parseList shape rest
    return x :: xs

/-- Parses every value of a JS object (`z.record`). -/
def parseRecord (shape : Json → Option α) :
    List (String × Json) → Option (List (String × α))
  | [] => some []
  | (k, j) :: rest => do
    let x ← shape j
    let xs ← parseRecord shape rest
    return (k, x) :: xs

/-- Serializes an optional field: an absent value emits no key. -/
def optEntry (key : String) (x : Option α) (emit : α → Json) : List (String × Json) :=
  match x with
  | none => []
  | some a => [(key, emit a)]

/-- Serializes a required nullable field. -/
def nullEntry (key : String) (x : Option α) (emit : α → Json) : List (String × Json) :=
  match x with
  | none => [(key, Json.null)]
  | some a => [(key, emit a)]

/-- Serializes an optional nullable field. -/
def optNullEntry (key : String) (x : Option (Option α)) (emit : α → Json) :
    List (String × Json) :=
  match x with
  | none => []
  | some none => [(key, Json.null)]
  | some (some a) => [(key, emit a)]

/-! ### Parsers and serializers per schema

Array- and record-valued fields go through named composite parsers
(`z.array(...)` and `z.record(...)` applied to the element schema). -/

/-- Parses `z.array(z.string())`. -/
def parseStrArray (j : Json) : Option (List String) := asArr j >>= parseList asStr

/-- Embeds `VendorSchema.parse`. -/
def parseVendor (j : Json) : Option Vendor := do
  let fs ← asObj j
  let name ← reqField fs "name" asStr
  let price ← reqField fs "price" asNum
  let regularPrice ← optNullField fs "regularPrice" asNum
  let url ← reqField fs "url" asStr
  let inStock ← reqField fs "inStock" asBool
  let sku ← optNullField fs "sku" asStr
  return ⟨name, price, regularPrice, url, inStock, sku⟩

def vendorToJson (v : Vendor) : Json :=
  Json.obj ([("name", Json.str v.name), ("price", Json.num v.price)] ++
    optNullEntry "regularPrice" v.regularPrice Json.num ++
    [("url", Json.str v.url), ("inStock", Json.bool v.inStock)] ++
    optNullEntry "sku" v.sku Json.str)

/-- Parses `z.array(VendorSchema)`. -/
def parseVendorArray (j : Json) : Option (List Vendor) := asArr j >>= parseList parseVendor

/-- Embeds `ProductSchema.parse`. -/
def parseProduct (j : Json) : Option Product := do
  let fs ← asObj j
  let id ← reqField fs "id" asStr
  let title ← reqField fs "title" asStr
  let image ← nullField fs "image" asStr
  let category ← reqField fs "category" asStr
  let tags ← reqField fs "tags" parseStrArray
  let vendors ← reqField fs "vendors" parseVendorArray
  let lowestPrice ← reqField fs "lowestPrice" asNum
  let inStock ← reqField fs "inStock" asBool
  return ⟨id, title, image, category, tags, vendors, lowestPrice, inStock⟩

def productToJson (p : Product) : Json :=
  Json.obj ([("id", Json.str p.id), ("title", Json.str p.title)] ++
    nullEntry "image" p.image Json.str ++
    [("category", Json.str p.category),
     ("tags", Json.arr (p.tags.map Json.str)),
     ("vendors", Json.arr (p.vendors.map vendorToJson)),
     ("lowestPrice", Json.num p.lowestPrice),
     ("inStock", Json.bool p.inStock)])

/-- Parses `z.array(ProductSchema)`. -/
def parseProductArray (j : Json) : Option (List Product) := asArr j >>= parseList parseProduct

/-- Embeds `ProductsDataSchema.parse`. -/
def parseProductsData (j : Json) : Option ProductsData := do
  let fs ← asObj j
  let lastUpdated ← reqField fs "lastUpdated" asStr
  let storeCount ← reqField fs "storeCount" asNum
  let productCount ← reqField fs "productCount" asNum
  let products ← reqField fs "products" parseProductArray
  return ⟨lastUpdated, storeCount, productCount, products⟩

def productsDataToJson (d : ProductsData) : Json :=
  Json.obj [("lastUpdated", Json.str d.lastUpdated),
    ("storeCount", Json.num d.storeCount),
    ("productCount", Json.num d.productCount),
    ("products", Json.arr (d.products.map productToJson))]

/-- Embeds `PricePointSchema.parse`.  Only the six declared keys are
read; any other key of the JSON object (a `stockPrev`, say) is dropped. -/
def parsePricePoint (j : Json) : Option PricePoint := do
  let fs ← asObj j
  let t ← reqField fs "t" asNum
  let p ← reqField fs "p" asNum
  let rp ← optField fs "rp" asNum
  let s ← optField fs "s" asBool
  let v ← optField fs "v" asStr
  let prev ← optField fs "prev" asNum
  return ⟨t, p, rp, s, v, prev⟩

def pricePointToJson (pt : PricePoint) : Json :=
  Json.obj ([("t", Json.num pt.t), ("p", Json.num pt.p)] ++
    optEntry "rp" pt.rp Json.num ++
    optEntry "s" pt.s Json.bool ++
    optEntry "v" pt.v Json.str ++
    optEntry "prev" pt.prev Json.num)

/-- Parses `z.array(PricePointSchema)`. -/
def parsePricePointArray (j : Json) : Option (List PricePoint) :=
  asArr j >>= parseList parsePricePoint

/-- Parses `z.record(z.string(), z.array(PricePointSchema))`. -/
def parseSeriesRecord (j : Json) : Option (List (String × List PricePoint)) :=
  asObj j >>= parseRecord parsePricePointArray

/-- Embeds `ProductPriceHistorySchema.parse`. -/
def parseProductPriceHistory (j : Json) : Option ProductPriceHistory := do
  let fs ← asObj j
  let vendors ← reqField fs "vendors" parseSeriesRecord
  let lowest ← reqField fs "lowest" parsePricePointArray
  return ⟨vendors, lowest⟩

def productPriceHistoryToJson (h : ProductPriceHistory) : Json :=
  Json.obj [("vendors", Json.obj (h.vendors.map
      (fun e => (e.1, Json.arr (e.2.map pricePointToJson))))),
    ("lowest", Json.arr (h.lowest.map pricePointToJson))]

/-- Parses `z.record(z.string(), ProductPriceHistorySchema)`. -/
def parseHistoryRecord (j : Json) : Option (List (String × ProductPriceHistory)) :=
  asObj j >>= parseRecord parseProductPriceHistory

/-- Embeds `TrackerDataResponseSchema.parse`. -/
def parseTrackerDataResponse (j : Json) : Option TrackerDataResponse := do
  let fs ← asObj j
  let lastUpdated ← reqField fs "lastUpdated" asStr
  let history ← reqField fs "history" parseHistoryRecord
  return ⟨lastUpdated, history⟩

def trackerDataResponseToJson (d : TrackerDataResponse) : Json :=
  Json.obj [("lastUpdated", Json.str d.lastUpdated),
    ("history", Json.obj (d.history.map
      (fun e => (e.1, productPriceHistoryToJson e.2))))]

/-- Embeds the `z.enum` of `LogEntrySchema`. -/
def parseLogLevel (s : String) : Option LogLevel :=
  if s = "INFO" then some LogLevel.info
  else if s = "WARNING" then some LogLevel.warning
  else if s = "ERROR" then some LogLevel.error
  else if s = "DEBUG" then some LogLevel.debug
  else none

def logLevelToString : LogLevel → String
  | LogLevel.info => "INFO"
  | LogLevel.warning => "WARNING"
  | LogLevel.error => "ERROR"
  | LogLevel.debug => "DEBUG"

/-- Embeds `LogEntrySchema.parse`. -/
def parseLogEntry (j : Json) : Option LogEntry := do
  let fs ← asObj j
  let time ← reqField fs "time" asStr
  let level ← reqField fs "level" asStr >>= parseLogLevel
  let message ← reqField fs "message" asStr
  return ⟨time, level, message⟩

def logEntryToJson (e : LogEntry) : Json :=
  Json.obj [("time", Json.str e.time),
    ("level", Json.str (logLevelToString e.level)),
    ("message", Json.str e.message)]

/-- Embeds `FilteredProductSchema.parse`. -/
def parseFilteredProduct (j : Json) : Option FilteredProduct := do
  let fs ← asObj j
  let title ← reqField fs "title" asStr
  let reason ← reqField fs "reason" asStr
  let keyword ← reqField fs "keyword" asStr
  let filterCategory ← optField fs "filterCategory" asStr
  return ⟨title, reason, keyword, filterCategory⟩

def filteredProductToJson (f : FilteredProduct) : Json :=
  Json.obj ([("title", Json.str f.title), ("reason", Json.str f.reason),
    ("keyword", Json.str f.keyword)] ++
    optEntry "filterCategory" f.filterCategory Json.str)

/-- Parses `z.array(LogEntrySchema)`. -/
def parseLogEntryArray (j : Json) : Option (List LogEntry) :=
  asArr j >>= parseList parseLogEntry

/-- Parses `z.array(FilteredProductSchema)`. -/
def parseFilteredProductArray (j : Json) : Option (List FilteredProduct) :=
  asArr j >>= parseList parseFilteredProduct

/-- Embeds `StoreStatsSchema.parse`. -/
def parseStoreStats (j : Json) : Option StoreStats := do
  let fs ← asObj j
  let name ← reqField fs "name" asStr
  let url ← reqField fs "url" asStr
  let platform ← reqField fs "platform" asStr
  let fetched ← reqField fs "fetched" asNum
  let filtered ← reqField fs "filtered" asNum
  let final ← reqField fs "final" asNum
  let inStock ← reqField fs "inStock" asNum
  let outOfStock ← reqField fs "outOfStock" asNum
  let duration ← reqField fs "duration" asNum
  let error ← nullField fs "error" asStr
  let cached_at ← optField fs "cached_at" asStr
  let logs ← reqField fs "logs" parseLogEntryArray
  let filteredProducts ← optField fs "filteredProducts" parseFilteredProductArray
  return ⟨name, url, platform, fetched, filtered, final, inStock, outOfStock,
    duration, error, cached_at, logs, filteredProducts⟩

def storeStatsToJson (s : StoreStats) : Json :=
  Json.obj ([("name", Json.str s.name), ("url", Json.str s.url),
    ("platform", Json.str s.platform), ("fetched", Json.num s.fetched),
    ("filtered", Json.num s.filtered), ("final", Json.num s.final),
    ("inStock", Json.num s.inStock), ("outOfStock", Json.num s.outOfStock),
    ("duration", Json.num s.duration)] ++
    nullEntry "error" s.error Json.str ++
    optEntry "cached_at" s.cached_at Json.str ++
    [("logs", Json.arr (s.logs.map logEntryToJson))] ++
    optEntry "filteredProducts" s.filteredProducts
      (fun l => Json.arr (l.map filteredProductToJson)))

/-- Parses `z.array(StoreStatsSchema)`. -/
def parseStoreStatsArray (j : Json) : Option (List StoreStats) :=
  asArr j >>= parseList parseStoreStats

/-- Embeds `StatsSchema.parse`. -/
def parseStats (j : Json) : Option Stats := do
  let fs ← asObj j
  let lastUpdated ← reqField fs "lastUpdated" asStr
  let duration ← reqField fs "duration" asNum
  let stores ← reqField fs "stores" parseStoreStatsArray
  return ⟨lastUpdated, duration, stores⟩

def statsToJson (s : Stats) : Json :=
  Json.obj [("lastUpdated", Json.str s.lastUpdated),
    ("duration", Json.num s.duration),
    ("stores", Json.arr (s.stores.map storeStatsToJson))]

/-- Embeds `ItemSchema.parse`. -/
def parseItem (j : Json) : Option Item := do
  let fs ← asObj j
  let id ← reqField fs "id" asStr
  let storeId ← reqField fs "storeId" asStr
  let productId ← reqField fs "productId" asStr
  let variantId ← reqField fs "variantId" asStr
  let title ← reqField fs "title" asStr
  let sku ← nullField fs "sku" asStr
  let price ← reqField fs "price" asNum
  let regularPrice ← nullField fs "regularPrice" asNum
  let image ← nullField fs "image" asStr
  let url ← reqField fs "url" asStr
  let vendor ← reqField fs "vendor" asStr
  let category ← reqField fs "category" asStr
  let tags ← reqField fs "tags" parseStrArray
  let inStock ← reqField fs "inStock" asBool
  return ⟨id, storeId, productId, variantId, title, sku, price, regularPrice,
    image, url, vendor, category, tags, inStock⟩

def itemToJson (i : Item) : Json :=
  Json.obj ([("id", Json.str i.id), ("storeId", Json.str i.storeId),
    ("productId", Json.str i.productId), ("variantId", Json.str i.variantId),
    ("title", Json.str i.title)] ++
    nullEntry "sku" i.sku Json.str ++
    [("price", Json.num i.price)] ++
    nullEntry "regularPrice" i.regularPrice Json.num ++
    nullEntry "image" i.image Json.str ++
    [("url", Json.str i.url), ("vendor", Json.str i.vendor),
     ("category", Json.str i.category),
     ("tags", Json.arr (i.tags.map Json.str)),
     ("inStock", Json.bool i.inStock)])

/-- Parses `z.record(z.string(), ItemSchema)`. -/
def parseItemRecord (j : Json) : Option (List (String × Item)) :=
  asObj j >>= parseRecord parseItem

/-- Embeds `ItemsDataSchema.parse`. -/
def parseItemsData (j : Json) : Option ItemsData := do
  let fs ← asObj j
  let lastUpdated ← reqField fs "lastUpdated" asStr
  let items ← reqField fs "items" parseItemRecord
  return ⟨lastUpdated, items⟩

def itemsDataToJson (d : ItemsData) : Json :=
  Json.obj [("lastUpdated", Json.str d.lastUpdated),
    ("items", Json.obj (d.items.map (fun e => (e.1, itemToJson e.2))))]

/-- Embeds `ItemHistoryDataSchema.parse`. -/
def parseItemHistoryData (j : Json) : Option ItemHistoryData := do
  let fs ← asObj j
  let lastUpdated ← reqField fs "lastUpdated" asStr
  let history ← reqField fs "history" parseSeriesRecord
  return ⟨lastUpdated, history⟩

def itemHistoryDataToJson (d : ItemHistoryData) : Json :=
  Json.obj [("lastUpdated", Json.str d.lastUpdated),
    ("history", Json.obj (d.history.map
      (fun e => (e.1, Json.arr (e.2.map pricePointToJson)))))]

/-! ### Stock-flip detection in the Svelte tracker feed (src/routes/tracker page)

The feed walks consecutive pairs of a history series and reads stock from
the `s` field: `current.s !== false`. -/

/-- Stock reading of a validated point: `point.s !== false` (absent or
`true` count as in stock, only `false` is out of stock). -/
def pointInStock (pt : PricePoint) : Bool := pt.s != some false

/-- Stock-related feed event types of the Svelte tracker page. -/
inductive StockFeedEvent where
  | backInStock
  | outOfStock
deriving DecidableEq, Repr

/-- Embeds the stock-change branch of the feed loop: given the current
point and the chronologically previous point, classifies a stock flip. -/
def classifyStockPair (current previous : PricePoint) : Option StockFeedEvent :=
  let currentInStock := pointInStock current
  let previousInStock := pointInStock previous
  if currentInStock && !previousInStock then some StockFeedEvent.backInStock
  else if !currentInStock && previousInStock then some StockFeedEvent.outOfStock
  else none

/-! ### Raw history entries and the legacy status app (src/js/app.js)

`src/js/app.js` loads `tracker-data.json` without schema validation, so
its entries may carry a `stockPrev` key in addition to the six keys of
`PricePointSchema`. -/

/-- History point as written in the JSON documents: the six validated
fields plus the optional `stockPrev` (previous stock boolean of a
stock-flip event). -/
structure RawPricePoint where
  t : ℚ
  p : ℚ
  rp : Option ℚ
  s : Option Bool
  v : Option String
  prev : Option ℚ
  stockPrev : Option Bool
deriving DecidableEq, Repr

def rawPricePointToJson (pt : RawPricePoint) : Json :=
  Json.obj ([("t", Json.num pt.t), ("p", Json.num pt.p)] ++
    optEntry "rp" pt.rp Json.num ++
    optEntry "s" pt.s Json.bool ++
    optEntry "v" pt.v Json.str ++
    optEntry "prev" pt.prev Json.num ++
    optEntry "stockPrev" pt.stockPrev Json.bool)

/-- The validated view of a raw point: `stockPrev` is gone. -/
def dropStockPrev (pt : RawPricePoint) : PricePoint :=
  ⟨pt.t, pt.p, pt.rp, pt.s, pt.v, pt.prev⟩

/-- JS truthiness of an optional boolean (`entry.s ? ... : ...`):
`undefined` and `false` are both falsy. -/
def sTruthy : Option Bool → Bool
  | some true => true
  | _ => false

/-- Stock-change event produced by the legacy status app. -/
structure StockChange where
  eventType : String
  timestamp : ℚ
  price : ℚ
deriving DecidableEq, Repr

/-- Stock-tracking deployment baseline hard-coded in `src/js/app.js`. -/
def stockBaselineLegacy : ℚ := 1767149439

/-- Embeds the per-entry test of the legacy `stockChanges` getter: an
entry yields a stock event exactly when its `stockPrev` is defined and
its timestamp passes the cutoff and baseline; the event type is chosen
by the truthiness of `entry.s`. -/
def stockChangeOfEntry (cutoff : ℚ) (e : RawPricePoint) : Option StockChange :=
  if e.stockPrev.isSome && decide (cutoff ≤ e.t) && decide (stockBaselineLegacy < e.t) then
    some ⟨if sTruthy e.s then "back-in-stock" else "out-of-stock", e.t, e.p⟩
  else none

/-- Embeds the inner loop of the legacy `stockChanges` getter for one
vendor's entry list. -/
def stockChangeEntries (cutoff : ℚ) (entries : List RawPricePoint) : List StockChange :=
  entries.filterMap (stockChangeOfEntry cutoff)

/-! ### The History Tracker, modelled from the specification

The tracker itself lives in the repository's `scripts/` directory, which
is not part of these sources; the definitions below follow the
specification (sections 3 and 4.2) and are used only for the claims about
the tracker. -/

/-- Current state of one vendor listing as the tracker sees it. -/
structure ListingState where
  price : ℚ
  regularPrice : Option ℚ
  inStock : Bool
deriving DecidableEq, Repr

/-- Stock reading of a raw point (absent/true = in stock). -/
def rawInStock (pt : RawPricePoint) : Bool := pt.s != some false

/-- Cent-tolerance equality on optional regular prices. -/
def optPricesEqual : Option ℚ → Option ℚ → Bool
  | none, none => true
  | some a, some b => pricesEqual a b
  | _, _ => false

/-- Modelled from the spec: the tracker's per-cycle comparison of a
listing against the last recorded point — price, regularPrice and stock
must all agree within cent-level tolerance (§4.2). -/
def sameListingState (last : RawPricePoint) (st : ListingState) : Bool :=
  pricesEqual last.p st.price &&
  optPricesEqual last.rp st.regularPrice &&
  (rawInStock last == st.inStock)

/-- Retention window: one year, in seconds (§3, §4.2). -/
def retentionSeconds : ℚ := 365 * 24 * 60 * 60

/-- Modelled from the spec: pruning drops every point older than the
retention window (§4.2). -/
def pruneSeries (now : ℚ) (series : List RawPricePoint) : List RawPricePoint :=
  series.filter (fun pt => decide (now - retentionSeconds ≤ pt.t))

/-- Modelled from the spec: a newly appended point carries the current
state and, when a prior point exists, the previous price and stock as
`prev` and `stockPrev` (§4.2, §6). -/
def freshPoint (now : ℚ) (st : ListingState) (last : Option RawPricePoint) : RawPricePoint :=
  { t := now, p := st.price, rp := st.regularPrice, s := some st.inStock, v := none,
    prev := last.map RawPricePoint.p, stockPrev := last.map rawInStock }

/-- Modelled from the spec: one tracker cycle for one vendor-listing
series (§4.2).  No prior point: append the first point.  Prior point with
an unchanged state: write nothing.  Otherwise append a new point and
prune the series to the retention window. -/
def trackListing (now : ℚ) (series : List RawPricePoint) (st : ListingState) :
    List RawPricePoint :=
  match series.getLast? with
  | none => pruneSeries now (series ++ [freshPoint now st none])
  | some last =>
    if sameListingState last st then series
    else pruneSeries now (series ++ [freshPoint now st (some last)])

/-! ### Search (src/lib/search/fuse.ts)

The word-based pass and the dispatch of `searchProducts` are embedded
directly; the Fuse.js index is an external library and is passed in as a
function, and the module-level result cache (a pure lookup optimization)
is not modelled. -/

/-- Whitespace for the JS `\s` class (the common cases). -/
def isWsChar (c : Char) : Bool := c = ' ' || c = '\t' || c = '\n' || c = '\r'

/-- Hyphen, en dash and em dash, the class `[-–—]`. -/
def isDashChar (c : Char) : Bool := c = '-' || c = '–' || c = '—'

/-- Collapses every run of whitespace to a single space (`\s+` → space). -/
def collapseWs : List Char → List Char
  | [] => []
  | c :: rest =>
    if isWsChar c then
      match rest with
      | [] => [' ']
      | c₂ :: _ => if isWsChar c₂ then collapseWs rest else ' ' :: collapseWs rest
    else c :: collapseWs rest

/-- JS `String.trim`. -/
def jsTrimList (l : List Char) : List Char :=
  ((l.dropWhile isWsChar).reverse.dropWhile isWsChar).reverse

def jsTrim (s : String) : String := String.mk (jsTrimList s.toList)

/-- Shared normalization chain: dashes to spaces, collapse whitespace,
lower-case, trim. -/
def normalizeChain (s : String) : String :=
  String.mk (jsTrimList ((collapseWs ((s.toList).map
    (fun c => if isDashChar c then ' ' else c))).map Char.toLower))

/-- Embeds `normalizeForSearch`: the spaced form followed by the
space-free compact form. -/
def normalizeForSearch (text : String) : String :=
  if text = "" then ""
  else
    let withSpaces := normalizeChain text
    let compact := String.mk (withSpaces.toList.filter (fun c => !(isWsChar c)))
    withSpaces ++ " " ++ compact

/-- Embeds `normalizeQuery`. -/
def normalizeQuery (query : String) : String := normalizeChain query

/-- JS `String.includes` as substring containment. -/
def strIncludes (hay needle : String) : Bool :=
  (hay.toList.tails).any (fun t => needle.toList.isPrefixOf t)

/-- Embeds `buildSearchText`: title, category, the truthy vendor SKUs and
the tags, joined by spaces and normalized. -/
def buildSearchText (p : Product) : String :=
  let skus := String.intercalate " " (p.vendors.filterMap (fun v =>
    match v.sku with
    | some (some s) => if s = "" then none else some s
    | _ => none))
  normalizeForSearch
    (p.title ++ " " ++ p.category ++ " " ++ skus ++ " " ++ String.intercalate " " p.tags)

/-- Splits a character list at single whitespace characters.  The
normalized query has its whitespace runs already collapsed to single
spaces, so this coincides with the JS split on `\s+` there (and any
empty fragment is discarded by the length filter below anyway). -/
def splitWsAux : List Char → List Char → List String
  | [], acc => [String.mk acc.reverse]
  | c :: rest, acc =>
    if isWsChar c then String.mk acc.reverse :: splitWsAux rest []
    else splitWsAux rest (c :: acc)

/-- Search words of a query: the normalized query split on whitespace,
words shorter than `MIN_MATCH_LENGTH = 2` dropped. -/
def searchWordsOf (query : String) : List String :=
  (splitWsAux (normalizeQuery query).toList []).filter (fun w => 2 ≤ w.length)

/-- Containment of every search word in a product's searchable text (the
predicate of `wordBasedSearch`). -/
def matchesAllWords (query : String) (p : Product) : Bool :=
  (searchWordsOf query).all (fun w => strIncludes (buildSearchText p) w)

/-- Embeds `wordBasedSearch`. -/
def wordBasedSearch (products : List Product) (query : String) : List Product :=
  let searchWords := searchWordsOf query
  if searchWords.isEmpty then products
  else products.filter (fun p => searchWords.all (fun w => strIncludes (buildSearchText p) w))

/-- Detection of extended-search operators: `/^['=^!]|[|]/`. -/
def hasExtendedOperators (s : String) : Bool :=
  (match s.toList with
   | [] => false
   | c :: _ => c = Char.ofNat 39 || c = '=' || c = '^' || c = '!') ||
  s.toList.contains '|'

/-- Embeds `searchProducts`; `fuseSearch` stands for the Fuse.js index
search, and the memo cache is not modelled. -/
def searchProducts (fuseSearch : List Product → String → List Product)
    (products : List Product) (query : String) : List Product :=
  let trimmedQuery := jsTrim query
  if trimmedQuery = "" then products
  else if hasExtendedOperators trimmedQuery then fuseSearch products trimmedQuery
  else
    let wordResults := wordBasedSearch products trimmedQuery
    if wordResults.isEmpty then fuseSearch products (normalizeQuery trimmedQuery)
    else wordResults

/-! ### Stable sorting

JS `Array.prototype.sort` is required to be stable; it is modelled as a
stable insertion sort over the boolean relation `comparator(a, b) <= 0`. -/

def insertSorted (le : α → α → Bool) (x : α) : List α → List α
  | [] => [x]
  | y :: ys => if le y x then y :: insertSorted le x ys else x :: y :: ys

def jsSort (le : α → α → Bool) (l : List α) : List α :=
  l.foldl (fun acc x => insertSorted le x acc) []

/-! ### Filtering and sorting (src/lib/utils/filter.ts) -/

/-- Sort options of `FilterState.sortBy` (src/lib/stores/filters.svelte). -/
inductive SortOption where
  | discountDollars
  | discountPercent
  | priceAsc
  | priceDesc
  | nameAsc
  | nameDesc
  | newest
deriving DecidableEq, Repr

/-- Filter state (src/lib/stores/filters.svelte). -/
structure FilterState where
  search : String
  categories : List String
  stores : List String
  minPrice : Option ℚ
  maxPrice : Option ℚ
  inStockOnly : Bool
  onSaleOnly : Bool
  sortBy : SortOption
deriving DecidableEq, Repr

/-- Embeds `sortProducts`; `cmpStr` stands for the locale-dependent
`String.localeCompare`.  The switch has no case for the discount options
or `newest`, so those leave the copied list unsorted. -/
def sortProducts (cmpStr : String → String → Ordering) (products : List Product)
    (sortBy : SortOption) : List Product :=
  match sortBy with
  | SortOption.priceAsc => jsSort (fun a b => decide (a.lowestPrice ≤ b.lowestPrice)) products
  | SortOption.priceDesc => jsSort (fun a b => decide (b.lowestPrice ≤ a.lowestPrice)) products
  | SortOption.nameAsc => jsSort (fun a b => cmpStr a.title b.title ≠ Ordering.gt) products
  | SortOption.nameDesc => jsSort (fun a b => cmpStr b.title a.title ≠ Ordering.gt) products
  | _ => products

/-- Truthy regular price strictly above the sale price:
`v.regularPrice && v.price < v.regularPrice`. -/
def vendorOnSale (v : Vendor) : Bool :=
  match v.regularPrice with
  | some (some rp) => !(rp == 0) && decide (v.price < rp)
  | _ => false

/-- Search stage of `filterProducts`: `if (filters.search) ...`. -/
def applySearchFilter (fuseSearch : List Product → String → List Product)
    (filters : FilterState) (l : List Product) : List Product :=
  if filters.search ≠ "" then searchProducts fuseSearch l filters.search else l

/-- Category stage of `filterProducts`. -/
def applyCategoryFilter (filters : FilterState) (l : List Product) : List Product :=
  if filters.categories.isEmpty then l
  else l.filter (fun p => !(p.category == "") && filters.categories.contains p.category)

/-- Store stage of `filterProducts`. -/
def applyStoreFilter (filters : FilterState) (l : List Product) : List Product :=
  if filters.stores.isEmpty then l
  else l.filter (fun p => p.vendors.any (fun v => filters.stores.contains v.name))

/-- Minimum-price stage of `filterProducts`. -/
def applyMinPriceFilter (filters : FilterState) (l : List Product) : List Product :=
  match filters.minPrice with
  | none => l
  | some m => l.filter (fun p => decide (m ≤ p.lowestPrice))

/-- Maximum-price stage of `filterProducts`. -/
def applyMaxPriceFilter (filters : FilterState) (l : List Product) : List Product :=
  match filters.maxPrice with
  | none => l
  | some m => l.filter (fun p => decide (p.lowestPrice ≤ m))

/-- In-stock stage of `filterProducts`. -/
def applyInStockFilter (filters : FilterState) (l : List Product) : List Product :=
  if filters.inStockOnly then l.filter (fun p => p.inStock) else l

/-- On-sale stage of `filterProducts`. -/
def applyOnSaleFilter (filters : FilterState) (l : List Product) : List Product :=
  if filters.onSaleOnly then l.filter (fun p => p.vendors.any vendorOnSale) else l

/-- Embeds `filterProducts`: search, then category, store, price-range,
in-stock and on-sale filters, then sort. -/
def filterProducts (fuseSearch : List Product → String → List Product)
    (cmpStr : String → String → Ordering) (products : List Product)
    (filters : FilterState) : List Product :=
  sortProducts cmpStr
    (applyOnSaleFilter filters (applyInStockFilter filters (applyMaxPriceFilter filters
      (applyMinPriceFilter filters (applyStoreFilter filters (applyCategoryFilter filters
        (applySearchFilter fuseSearch filters products))))))) filters.sortBy

/-! ### The product list item (src/lib/components/product/ProductListItem.svelte) -/

/-- Embeds the vendor comparator of `sortedVendors` as the relation
`comparator(a, b) <= 0`: price with a one-cent tolerance, then in-stock
first, then the vendor name (`cmpStr` stands for `localeCompare`). -/
def vendorSortLe (cmpStr : String → String → Ordering) (a b : Vendor) : Bool :=
  if decide ((1 : ℚ)/100 ≤ |a.price - b.price|) then decide (a.price ≤ b.price)
  else if a.inStock != b.inStock then a.inStock
  else cmpStr a.name b.name ≠ Ordering.gt

/-- Embeds `sortedVendors`: the vendors (restricted to in-stock ones when
the in-stock-only filter is active) sorted by the comparator above. -/
def sortedVendors (cmpStr : String → String → Ordering) (inStockOnly : Bool)
    (p : Product) : List Vendor :=
  jsSort (vendorSortLe cmpStr)
    (if inStockOnly then p.vendors.filter Vendor.inStock else p.vendors)

/-- Embeds the `lowestPrice` shown by the list item: the first sorted
vendor's price, or the product's `lowestPrice` field if no vendor is
displayed. -/
def displayedLowestPrice (cmpStr : String → String → Ordering) (inStockOnly : Bool)
    (p : Product) : ℚ :=
  match sortedVendors cmpStr inStockOnly p with
  | [] => p.lowestPrice
  | v :: _ => v.price

/-- Minimum price of a vendor list. -/
def minPriceOf : List Vendor → Option ℚ
  | [] => none
  | v :: vs => some (vs.foldl (fun m w => min m w.price) v.price)

/-- Follows the specification's words (§3 invariant 4): the vendor pool
whose minimum defines `Product.lowestPrice` — the in-stock members, or
all members when none is in stock. -/
def specLowestPool (p : Product) : List Vendor :=
  let inStockVendors := p.vendors.filter Vendor.inStock
  if inStockVendors.isEmpty then p.vendors else inStockVendors

/-- Follows the specification's words (§3 invariant 4): minimum price
among in-stock member listings, falling back to the minimum among all
listings when none is in stock. -/
def specLowestPrice (p : Product) : Option ℚ := minPriceOf (specLowestPool p)

/-! ### The Identity Resolver, modelled from the specification

The resolver lives in the repository's `scripts/` directory, which is
not part of these sources; the definitions below follow the
specification (§4.1).  The string-similarity measure is deliberately a
parameter, since §9 leaves it open. -/

/-- Listing record as described in §2. -/
structure Listing where
  vendor : String
  sku : Option String
  title : String
  category : String
  tags : List String
  price : ℚ
  regularPrice : Option ℚ
  inStock : Bool
  url : String
deriving DecidableEq, Repr

/-- Modelled from the spec: SKU normalization — case-insensitive,
whitespace-insensitive, hyphen-normalized (§4.1 step 1). -/
def normalizeSku (sku : String) : String :=
  String.mk ((sku.toList.filter
    (fun c => !(isWsChar c) && !(isDashChar c))).map Char.toLower)

/-- Modelled from the spec: the usable normalized SKU of a listing — the
SKU must be present, non-empty and at least the minimum length (§4.1). -/
def usableSkuOf (minSkuLen : Nat) (l : Listing) : Option String :=
  match l.sku with
  | none => none
  | some s =>
    let n := normalizeSku s
    if !(n == "") && minSkuLen ≤ n.length then some n else none

/-- Bounded reachability in a graph on `Fin`-like indices below `n`. -/
def reachableWithin (adj : Nat → Nat → Bool) (n : Nat) :
    Nat → Nat → Nat → Bool
  | 0, i, j => i == j
  | fuel + 1, i, j =>
    i == j || (List.range n).any (fun k => adj i k && reachableWithin adj n fuel k j)

/-- Modelled from the spec: the transitive fuzzy group of an index is
identified by the least reachable index (union-find grouping, §4.1
step 3). -/
def componentRoot (adj : Nat → Nat → Bool) (n i : Nat) : Nat :=
  ((List.range n).filter (fun j => reachableWithin adj n n i j)).headD i

/-- Modelled from the spec: fuzzy adjacency — only listings without a
usable SKU, within the same category, with similarity at or above the
threshold in either direction (§4.1 step 2). -/
def resolveAdj (sim : Listing → Listing → Bool) (minSkuLen : Nat)
    (listings : List Listing) (i j : Nat) : Bool :=
  match listings.get? i, listings.get? j with
  | some a, some b =>
    (usableSkuOf minSkuLen a).isNone && (usableSkuOf minSkuLen b).isNone &&
    (a.category == b.category) && (sim a b || sim b a)
  | _, _ => false

/-- Modelled from the spec: the group a listing resolves to — the
normalized SKU bucket when the SKU is usable, else the transitive fuzzy
component of its index (§4.1). -/
def productGroupOf (sim : Listing → Listing → Bool) (minSkuLen : Nat)
    (listings : List Listing) (l : Listing) : Sum String Nat :=
  match usableSkuOf minSkuLen l with
  | some key => Sum.inl key
  | none =>
    Sum.inr (componentRoot (resolveAdj sim minSkuLen listings) listings.length
      (listings.findIdx (fun x => x == l)))

/-! ### Concrete example values used in witnesses and counterexamples -/

/-- A concrete string comparator standing in for `localeCompare`. -/
def strOrd (a b : String) : Ordering := compare a b

/-- A concrete stand-in for the Fuse.js index search that finds nothing. -/
def demoFuse (_ : List Product) (_ : String) : List Product := []

/-- Out-of-stock vendor with the cheapest offer. -/
def demoVendorA : Vendor := ⟨"StoreA", 40, none, "https://a.example/m4", false, none⟩

/-- In-stock vendor with a dearer offer. -/
def demoVendorB : Vendor := ⟨"StoreB", 50, none, "https://b.example/m4", true, none⟩

/-- A product whose cheapest vendor is out of stock; its `lowestPrice`
field holds the spec rule's value (minimum over in-stock vendors). -/
def demoProduct : Product :=
  ⟨"p1", "Gel Blaster M4", none, "rifles", ["gbb"], [demoVendorA, demoVendorB], 50, true⟩

/-- A filter state with category, store and in-stock filters active. -/
def demoFilters : FilterState :=
  ⟨"", ["rifles"], ["StoreB"], none, none, true, false, SortOption.newest⟩

/-- Listing with a decorated SKU. -/
def demoListingA : Listing :=
  ⟨"StoreA", some "AB-C 12", "Pistol X", "pistols", [], 30, none, true, "https://a.example/x"⟩

/-- Listing with the same SKU normalized, a different title and category. -/
def demoListingB : Listing :=
  ⟨"StoreB", some "abc12", "Completely Different Title", "rifles", [], 35, none, false,
    "https://b.example/y"⟩

/-! ### Helper lemmas -/

theorem mem_insertSorted (le : α → α → Bool) (x a : α) (l : List α) :
    a ∈ insertSorted le x l ↔ a = x ∨ a ∈ l := by
  induction l with
  | nil => simp [insertSorted]
  | cons y ys ih =>
    simp only [insertSorted]
    by_cases h : le y x = true
    · simp [h, ih, List.mem_cons]
      tauto
    · simp [h, List.mem_cons]

theorem mem_jsSort_aux (le : α → α → Bool) (l acc : List α) (a : α) :
    a ∈ l.foldl (fun acc x => insertSorted le x acc) acc ↔ a ∈ acc ∨ a ∈ l := by
  induction l generalizing acc with
  | nil => simp
  | cons x xs ih =>
    simp only [List.foldl_cons, ih, mem_insertSorted, List.mem_cons]
    tauto

theorem mem_jsSort (le : α → α → Bool) (l : List α) (a : α) :
    a ∈ jsSort le l ↔ a ∈ l := by
  simp [jsSort, mem_jsSort_aux]

theorem length_insertSorted (le : α → α → Bool) (x : α) (l : List α) :
    (insertSorted le x l).length = l.length + 1 := by
  induction l with
  | nil => rfl
  | cons y ys ih =>
    by_cases h : le y x = true <;> simp [insertSorted, h, ih]

theorem length_jsSort_aux (le : α → α → Bool) (l acc : List α) :
    (l.foldl (fun acc x => insertSorted le x acc) acc).length = acc.length + l.length := by
  induction l generalizing acc with
  | nil => simp
  | cons x xs ih => simp [ih, length_insertSorted]; omega

theorem length_jsSort (le : α → α → Bool) (l : List α) :
    (jsSort le l).length = l.length := by
  simp [jsSort, length_jsSort_aux]

theorem parseList_map_eq (shape : Json → Option α) (emit : α → Json) (l : List α)
    (h : ∀ x ∈ l, shape (emit x) = some x) :
    parseList shape (l.map emit) = some l := by
  induction l with
  | nil => rfl
  | cons x xs ih =>
    simp only [List.map_cons, parseList, h x (List.mem_cons_self x xs),
      ih (fun y hy => h y (List.mem_cons_of_mem x hy)), Option.bind_eq_bind,
      Option.some_bind, Option.pure_def]

theorem parseRecord_map_eq (shape : Json → Option α) (emit : α → Json)
    (l : List (String × α)) (h : ∀ e ∈ l, shape (emit e.2) = some e.2) :
    parseRecord shape (l.map (fun e => (e.1, emit e.2))) = some l := by
  induction l with
  | nil => rfl
  | cons e es ih =>
    simp only [List.map_cons, parseRecord, h e (List.mem_cons_self e es),
      ih (fun y hy => h y (List.mem_cons_of_mem e hy)), Option.bind_eq_bind,
      Option.some_bind, Option.pure_def, Prod.mk.eta]

theorem vendor_roundtrip (v : Vendor) : parseVendor (vendorToJson v) = some v := by
  rcases v with ⟨n, pr, _ | (_ | rp), u, st, _ | (_ | sk)⟩ <;> rfl

theorem pricePoint_roundtrip (pt : PricePoint) :
    parsePricePoint (pricePointToJson pt) = some pt := by
  rcases pt with ⟨t, p, _ | rp, _ | s, _ | v, _ | pv⟩ <;> rfl

theorem logEntry_roundtrip (e : LogEntry) : parseLogEntry (logEntryToJson e) = some e := by
  rcases e with ⟨t, l, m⟩
  cases l <;> rfl

theorem filteredProduct_roundtrip (f : FilteredProduct) :
    parseFilteredProduct (filteredProductToJson f) = some f := by
  rcases f with ⟨t, r, k, _ | fc⟩ <;> rfl

theorem parseStrArray_emit (l : List String) :
    parseStrArray (Json.arr (l.map Json.str)) = some l := by
  simp only [parseStrArray, asArr, Option.bind_eq_bind, Option.some_bind]
  exact parseList_map_eq asStr Json.str l (fun x _ => rfl)

theorem parseVendorArray_emit (l : List Vendor) :
    parseVendorArray (Json.arr (l.map vendorToJson)) = some l := by
  simp only [parseVendorArray, asArr, Option.bind_eq_bind, Option.some_bind]
  exact parseList_map_eq parseVendor vendorToJson l (fun v _ => vendor_roundtrip v)

theorem parsePricePointArray_emit (l : List PricePoint) :
    parsePricePointArray (Json.arr (l.map pricePointToJson)) = some l := by
  simp only [parsePricePointArray, asArr, Option.bind_eq_bind, Option.some_bind]
  exact parseList_map_eq parsePricePoint pricePointToJson l (fun pt _ => pricePoint_roundtrip pt)

theorem parseSeriesRecord_emit (l : List (String × List PricePoint)) :
    parseSeriesRecord (Json.obj (l.map
      (fun e => (e.1, Json.arr (e.2.map pricePointToJson))))) = some l := by
  simp only [parseSeriesRecord, asObj, Option.bind_eq_bind, Option.some_bind]
  exact parseRecord_map_eq parsePricePointArray (fun s => Json.arr (s.map pricePointToJson)) l
    (fun e _ => parsePricePointArray_emit e.2)

theorem parseLogEntryArray_emit (l : List LogEntry) :
    parseLogEntryArray (Json.arr (l.map logEntryToJson)) = some l := by
  simp only [parseLogEntryArray, asArr, Option.bind_eq_bind, Option.some_bind]
  exact parseList_map_eq parseLogEntry logEntryToJson l (fun e _ => logEntry_roundtrip e)

theorem parseFilteredProductArray_emit (l : List FilteredProduct) :
    parseFilteredProductArray (Json.arr (l.map filteredProductToJson)) = some l := by
  simp only [parseFilteredProductArray, asArr, Option.bind_eq_bind, Option.some_bind]
  exact parseList_map_eq parseFilteredProduct filteredProductToJson l
    (fun e _ => filteredProduct_roundtrip e)

theorem product_roundtrip (p : Product) : parseProduct (productToJson p) = some p := by
  rcases p with ⟨id, title, image, category, tags, vendors, lp, st⟩
  have step : parseProduct (productToJson ⟨id, title, image, category, tags, vendors, lp, st⟩) =
      (parseStrArray (Json.arr (tags.map Json.str))).bind (fun tags2 =>
        (parseVendorArray (Json.arr (vendors.map vendorToJson))).bind (fun vendors2 =>
          some ⟨id, title, image, category, tags2, vendors2, lp, st⟩)) := by
    rcases image with _ | img <;> rfl
  rw [step, parseStrArray_emit, parseVendorArray_emit]
  rfl

theorem productsData_roundtrip (d : ProductsData) :
    parseProductsData (productsDataToJson d) = some d := by
  rcases d with ⟨lu, sc, pc, products⟩
  have hp : parseProductArray (Json.arr (products.map productToJson)) = some products := by
    simp only [parseProductArray, asArr, Option.bind_eq_bind, Option.some_bind]
    exact parseList_map_eq parseProduct productToJson products (fun p _ => product_roundtrip p)
  have step : parseProductsData (productsDataToJson ⟨lu, sc, pc, products⟩) =
      (parseProductArray (Json.arr (products.map productToJson))).bind (fun ps =>
        some ⟨lu, sc, pc, ps⟩) := rfl
  rw [step, hp]
  rfl

theorem productPriceHistory_roundtrip (h : ProductPriceHistory) :
    parseProductPriceHistory (productPriceHistoryToJson h) = some h := by
  rcases h with ⟨vendors, lowest⟩
  have step : parseProductPriceHistory (productPriceHistoryToJson ⟨vendors, lowest⟩) =
      (parseSeriesRecord (Json.obj (vendors.map
          (fun e => (e.1, Json.arr (e.2.map pricePointToJson)))))).bind (fun vs =>
        (parsePricePointArray (Json.arr (lowest.map pricePointToJson))).bind (fun ls =>
          some ⟨vs, ls⟩)) := rfl
  rw [step, parseSeriesRecord_emit, parsePricePointArray_emit]
  rfl

theorem trackerDataResponse_roundtrip (d : TrackerDataResponse) :
    parseTrackerDataResponse (trackerDataResponseToJson d) = some d := by
  rcases d with ⟨lu, history⟩
  have hh : parseHistoryRecord (Json.obj (history.map
      (fun e => (e.1, productPriceHistoryToJson e.2)))) = some history := by
    simp only [parseHistoryRecord, asObj, Option.bind_eq_bind, Option.some_bind]
    exact parseRecord_map_eq parseProductPriceHistory productPriceHistoryToJson history
      (fun e _ => productPriceHistory_roundtrip e.2)
  have step : parseTrackerDataResponse (trackerDataResponseToJson ⟨lu, history⟩) =
      (parseHistoryRecord (Json.obj (history.map
          (fun e => (e.1, productPriceHistoryToJson e.2))))).bind (fun hs =>
        some ⟨lu, hs⟩) := rfl
  rw [step, hh]
  rfl

theorem storeStats_roundtrip (s : StoreStats) :
    parseStoreStats (storeStatsToJson s) = some s := by
  rcases s with ⟨n, u, pf, fe, fi, fnl, ist, oos, du, err, ca, logs, fp⟩
  rcases fp with _ | fp
  · have step : parseStoreStats (storeStatsToJson
        ⟨n, u, pf, fe, fi, fnl, ist, oos, du, err, ca, logs, none⟩) =
        (parseLogEntryArray (Json.arr (logs.map logEntryToJson))).bind (fun ls =>
          some ⟨n, u, pf, fe, fi, fnl, ist, oos, du, err, ca, ls, none⟩) := by
      rcases err with _ | err <;> rcases ca with _ | ca <;> rfl
    rw [step, parseLogEntryArray_emit]
    rfl
  · have step : parseStoreStats (storeStatsToJson
        ⟨n, u, pf, fe, fi, fnl, ist, oos, du, err, ca, logs, some fp⟩) =
        (parseLogEntryArray (Json.arr (logs.map logEntryToJson))).bind (fun ls =>
          ((parseFilteredProductArray (Json.arr (fp.map filteredProductToJson))).map some).bind
            (fun fps => some ⟨n, u, pf, fe, fi, fnl, ist, oos, du, err, ca, ls, fps⟩)) := by
      rcases err with _ | err <;> rcases ca with _ | ca <;> rfl
    rw [step, parseLogEntryArray_emit, parseFilteredProductArray_emit]
    rfl

theorem stats_roundtrip (s : Stats) : parseStats (statsToJson s) = some s := by
  rcases s with ⟨lu, du, stores⟩
  have hs : parseStoreStatsArray (Json.arr (stores.map storeStatsToJson)) = some stores := by
    simp only [parseStoreStatsArray, asArr, Option.bind_eq_bind, Option.some_bind]
    exact parseList_map_eq parseStoreStats storeStatsToJson stores
      (fun e _ => storeStats_roundtrip e)
  have step : parseStats (statsToJson ⟨lu, du, stores⟩) =
      (parseStoreStatsArray (Json.arr (stores.map storeStatsToJson))).bind (fun ss =>
        some ⟨lu, du, ss⟩) := rfl
  rw [step, hs]
  rfl

theorem item_roundtrip (i : Item) : parseItem (itemToJson i) = some i := by
  rcases i with ⟨id, sid, pid, vid, t, sku, pr, rp, im, u, v, c, tags, st⟩
  have step : parseItem (itemToJson
      ⟨id, sid, pid, vid, t, sku, pr, rp, im, u, v, c, tags, st⟩) =
      (parseStrArray (Json.arr (tags.map Json.str))).bind (fun ts =>
        some ⟨id, sid, pid, vid, t, sku, pr, rp, im, u, v, c, ts, st⟩) := by
    rcases sku with _ | sku <;> rcases rp with _ | rp <;> rcases im with _ | im <;> rfl
  rw [step, parseStrArray_emit]
  rfl

theorem itemsData_roundtrip (d : ItemsData) :
    parseItemsData (itemsDataToJson d) = some d := by
  rcases d with ⟨lu, items⟩
  have hi : parseItemRecord (Json.obj (items.map (fun e => (e.1, itemToJson e.2)))) =
      some items := by
    simp only [parseItemRecord, asObj, Option.bind_eq_bind, Option.some_bind]
    exact parseRecord_map_eq parseItem itemToJson items (fun e _ => item_roundtrip e.2)
  have step : parseItemsData (itemsDataToJson ⟨lu, items⟩) =
      (parseItemRecord (Json.obj (items.map (fun e => (e.1, itemToJson e.2))))).bind
        (fun xs => some ⟨lu, xs⟩) := rfl
  rw [step, hi]
  rfl

theorem itemHistoryData_roundtrip (d : ItemHistoryData) :
    parseItemHistoryData (itemHistoryDataToJson d) = some d := by
  rcases d with ⟨lu, history⟩
  have step : parseItemHistoryData (itemHistoryDataToJson ⟨lu, history⟩) =
      (parseSeriesRecord (Json.obj (history.map
          (fun e => (e.1, Json.arr (e.2.map pricePointToJson)))))).bind (fun hs =>
        some ⟨lu, hs⟩) := rfl
  rw [step, parseSeriesRecord_emit]
  rfl

theorem rawPoint_validates (r : RawPricePoint) :
    parsePricePoint (rawPricePointToJson r) = some (dropStockPrev r) := by
  rcases r with ⟨t, p, _ | rp, _ | s, _ | v, _ | pv, _ | sp⟩ <;> rfl

theorem pricesEqual_refl (a : ℚ) : pricesEqual a a = true := by
  simp [pricesEqual]

theorem optPricesEqual_refl (o : Option ℚ) : optPricesEqual o o = true := by
  cases o <;> simp [optPricesEqual, pricesEqual_refl]

theorem rawInStock_fresh (now : ℚ) (st : ListingState) (last : Option RawPricePoint) :
    rawInStock (freshPoint now st last) = st.inStock := by
  cases h : st.inStock <;> simp [rawInStock, freshPoint, h]

theorem sameListingState_fresh (now : ℚ) (st : ListingState) (last : Option RawPricePoint) :
    sameListingState (freshPoint now st last) st = true := by
  unfold sameListingState
  rw [rawInStock_fresh]
  simp [freshPoint, pricesEqual_refl, optPricesEqual_refl]

theorem freshPoint_kept (now : ℚ) (st : ListingState) (last : Option RawPricePoint) :
    decide (now - retentionSeconds ≤ (freshPoint now st last).t) = true := by
  simp only [freshPoint, retentionSeconds, decide_eq_true_eq]
  norm_num

theorem pruneSeries_concat (now : ℚ) (l : List RawPricePoint) (pt : RawPricePoint)
    (h : decide (now - retentionSeconds ≤ pt.t) = true) :
    pruneSeries now (l ++ [pt]) = pruneSeries now l ++ [pt] := by
  simp only [pruneSeries, List.filter_append, List.filter_cons, h, if_true,
    List.filter_nil]

theorem getLast_prune_concat (now : ℚ) (l : List RawPricePoint) (st : ListingState)
    (o : Option RawPricePoint) :
    (pruneSeries now (l ++ [freshPoint now st o])).getLast? = some (freshPoint now st o) := by
  rw [pruneSeries_concat now l _ (freshPoint_kept now st o), List.getLast?_concat]

theorem trackListing_unchanged (now : ℚ) (series : List RawPricePoint)
    (st : ListingState) (last : RawPricePoint) (hl : series.getLast? = some last)
    (hs : sameListingState last st = true) : trackListing now series st = series := by
  unfold trackListing
  rw [hl]
  simp [hs]

theorem pairwise_lt_t_append (series : List RawPricePoint) (pt : RawPricePoint)
    (h1 : (series.map RawPricePoint.t).Pairwise (· < ·))
    (h2 : ∀ q ∈ series, q.t < pt.t) :
    ((series ++ [pt]).map RawPricePoint.t).Pairwise (· < ·) := by
  rw [List.map_append, List.pairwise_append]
  refine ⟨h1, by simp, ?_⟩
  intro a ha b hb
  simp only [List.map_cons, List.map_nil, List.mem_singleton] at hb
  subst hb
  rcases List.mem_map.mp ha with ⟨q, hq, rfl⟩
  exact h2 q hq

theorem pairwise_t_sublist (l₁ l₂ : List RawPricePoint) (h : l₁.Sublist l₂)
    (hp : (l₂.map RawPricePoint.t).Pairwise (· < ·)) :
    (l₁.map RawPricePoint.t).Pairwise (· < ·) :=
  List.Pairwise.sublist (h.map RawPricePoint.t) hp

theorem wordBasedSearch_eq_all (l : List Product) (q : String)
    (he : (searchWordsOf q).isEmpty = true) : wordBasedSearch l q = l := by
  simp [wordBasedSearch, he]

theorem wordBasedSearch_eq_filter (l : List Product) (q : String)
    (hne : (searchWordsOf q).isEmpty = false) :
    wordBasedSearch l q = l.filter (matchesAllWords q) := by
  simp only [wordBasedSearch, hne, Bool.false_eq_true, if_false]
  rfl

theorem matchesAllWords_of_no_words (q : String) (p : Product)
    (he : (searchWordsOf q).isEmpty = true) : matchesAllWords q p = true := by
  unfold matchesAllWords
  rw [List.isEmpty_iff.mp he]
  rfl

theorem mem_wordBasedSearch (l : List Product) (q : String) (p : Product)
    (h : p ∈ wordBasedSearch l q) : p ∈ l := by
  by_cases he : (searchWordsOf q).isEmpty = true
  · rwa [wordBasedSearch_eq_all l q he] at h
  · rw [wordBasedSearch_eq_filter l q (Bool.not_eq_true _ ▸ Bool.of_not_eq_true he)] at h
    exact (List.mem_filter.mp h).1

theorem mem_searchProducts (fuse : List Product → String → List Product)
    (hfuse : ∀ ps q, ∀ x ∈ fuse ps q, x ∈ ps) (l : List Product) (q : String)
    (p : Product) (hp : p ∈ searchProducts fuse l q) : p ∈ l := by
  unfold searchProducts at hp
  by_cases h1 : jsTrim q = ""
  · rwa [if_pos h1] at hp
  · rw [if_neg h1] at hp
    by_cases h2 : hasExtendedOperators (jsTrim q) = true
    · rw [if_pos h2] at hp
      exact hfuse l (jsTrim q) p hp
    · rw [if_neg h2] at hp
      by_cases h3 : (wordBasedSearch l (jsTrim q)).isEmpty = true
      · rw [if_pos h3] at hp
        exact hfuse l (normalizeQuery (jsTrim q)) p hp
      · rw [if_neg h3] at hp
        exact mem_wordBasedSearch l (jsTrim q) p hp

theorem mem_applySearchFilter (fuse : List Product → String → List Product)
    (hfuse : ∀ ps q, ∀ x ∈ fuse ps q, x ∈ ps) (filters : FilterState)
    (l : List Product) (p : Product) (h : p ∈ applySearchFilter fuse filters l) :
    p ∈ l := by
  unfold applySearchFilter at h
  by_cases hs : filters.search ≠ ""
  · rw [if_pos hs] at h
    exact mem_searchProducts fuse hfuse l filters.search p h
  · rwa [if_neg hs] at h

theorem mem_applyCategoryFilter (filters : FilterState) (l : List Product) (p : Product)
    (h : p ∈ applyCategoryFilter filters l) :
    p ∈ l ∧ (filters.categories ≠ [] → filters.categories.contains p.category = true) := by
  unfold applyCategoryFilter at h
  by_cases hc : filters.categories.isEmpty = true
  · rw [if_pos hc] at h
    exact ⟨h, fun hne => absurd (List.isEmpty_iff.mp hc) hne⟩
  · rw [if_neg hc] at h
    obtain ⟨hmem, hcond⟩ := List.mem_filter.mp h
    simp only [Bool.and_eq_true] at hcond
    exact ⟨hmem, fun _ => hcond.2⟩

theorem mem_applyStoreFilter (filters : FilterState) (l : List Product) (p : Product)
    (h : p ∈ applyStoreFilter filters l) :
    p ∈ l ∧ (filters.stores ≠ [] → ∃ v ∈ p.vendors, filters.stores.contains v.name = true) := by
  unfold applyStoreFilter at h
  by_cases hc : filters.stores.isEmpty = true
  · rw [if_pos hc] at h
    exact ⟨h, fun hne => absurd (List.isEmpty_iff.mp hc) hne⟩
  · rw [if_neg hc] at h
    obtain ⟨hmem, hcond⟩ := List.mem_filter.mp h
    rw [List.any_eq_true] at hcond
    exact ⟨hmem, fun _ => hcond⟩

theorem mem_applyMinPriceFilter (filters : FilterState) (l : List Product) (p : Product)
    (h : p ∈ applyMinPriceFilter filters l) :
    p ∈ l ∧ (∀ m, filters.minPrice = some m → m ≤ p.lowestPrice) := by
  unfold applyMinPriceFilter at h
  rcases hm : filters.minPrice with _ | m
  · rw [hm] at h
    exact ⟨h, fun m hsome => by cases hsome⟩
  · rw [hm] at h
    obtain ⟨hmem, hcond⟩ := List.mem_filter.mp h
    rw [decide_eq_true_eq] at hcond
    refine ⟨hmem, fun m2 hsome => ?_⟩
    cases hsome
    exact hcond

theorem mem_applyMaxPriceFilter (filters : FilterState) (l : List Product) (p : Product)
    (h : p ∈ applyMaxPriceFilter filters l) :
    p ∈ l ∧ (∀ m, filters.maxPrice = some m → p.lowestPrice ≤ m) := by
  unfold applyMaxPriceFilter at h
  rcases hm : filters.maxPrice with _ | m
  · rw [hm] at h
    exact ⟨h, fun m hsome => by cases hsome⟩
  · rw [hm] at h
    obtain ⟨hmem, hcond⟩ := List.mem_filter.mp h
    rw [decide_eq_true_eq] at hcond
    refine ⟨hmem, fun m2 hsome => ?_⟩
    cases hsome
    exact hcond

theorem mem_applyInStockFilter (filters : FilterState) (l : List Product) (p : Product)
    (h : p ∈ applyInStockFilter filters l) :
    p ∈ l ∧ (filters.inStockOnly = true → p.inStock = true) := by
  unfold applyInStockFilter at h
  by_cases hc : filters.inStockOnly = true
  · rw [if_pos hc] at h
    obtain ⟨hmem, hcond⟩ := List.mem_filter.mp h
    exact ⟨hmem, fun _ => hcond⟩
  · rw [if_neg hc] at h
    exact ⟨h, fun hx => absurd hx hc⟩

theorem mem_applyOnSaleFilter (filters : FilterState) (l : List Product) (p : Product)
    (h : p ∈ applyOnSaleFilter filters l) :
    p ∈ l ∧ (filters.onSaleOnly = true →
      ∃ v ∈ p.vendors, ∃ rp, v.regularPrice = some (some rp) ∧ v.price < rp) := by
  unfold applyOnSaleFilter at h
  by_cases hc : filters.onSaleOnly = true
  · rw [if_pos hc] at h
    obtain ⟨hmem, hcond⟩ := List.mem_filter.mp h
    rw [List.any_eq_true] at hcond
    obtain ⟨v, hv, hsale⟩ := hcond
    refine ⟨hmem, fun _ => ⟨v, hv, ?_⟩⟩
    unfold vendorOnSale at hsale
    rcases hrp : v.regularPrice with _ | (_ | rp) <;> rw [hrp] at hsale
    · cases hsale
    · cases hsale
    · simp only [Bool.and_eq_true, decide_eq_true_eq] at hsale
      exact ⟨rp, rfl, hsale.2⟩
  · rw [if_neg hc] at h
    exact ⟨h, fun hx => absurd hx hc⟩

theorem mem_sortProducts (cmpStr : String → String → Ordering) (l : List Product)
    (sb : SortOption) (p : Product) : p ∈ sortProducts cmpStr l sb ↔ p ∈ l := by
  cases sb <;> simp [sortProducts, mem_jsSort]

theorem foldl_min_le_init (vs : List Vendor) (a : ℚ) :
    vs.foldl (fun m w => min m w.price) a ≤ a := by
  induction vs generalizing a with
  | nil => simp
  | cons v rest ih =>
    rw [List.foldl_cons]
    exact le_trans (ih (min a v.price)) (min_le_left _ _)

theorem foldl_min_le_mem (vs : List Vendor) (a : ℚ) (v : Vendor) (hv : v ∈ vs) :
    vs.foldl (fun m w => min m w.price) a ≤ v.price := by
  induction vs generalizing a with
  | nil => cases hv
  | cons w rest ih =>
    rw [List.foldl_cons]
    rcases List.mem_cons.mp hv with rfl | hmem
    · exact le_trans (foldl_min_le_init rest _) (min_le_right _ _)
    · exact ih _ hmem

theorem foldl_min_eq_init_or_mem (vs : List Vendor) (a : ℚ) :
    vs.foldl (fun m w => min m w.price) a = a ∨
      ∃ v ∈ vs, vs.foldl (fun m w => min m w.price) a = v.price := by
  induction vs generalizing a with
  | nil => exact Or.inl rfl
  | cons w rest ih =>
    rw [List.foldl_cons]
    rcases ih (min a w.price) with h | ⟨v, hv, he⟩
    · rcases le_total a w.price with hle | hge
      · exact Or.inl (by rw [h, min_eq_left hle])
      · exact Or.inr ⟨w, List.mem_cons_self w rest, by rw [h, min_eq_right hge]⟩
    · exact Or.inr ⟨v, List.mem_cons_of_mem w hv, he⟩

theorem minPriceOf_spec (l : List Vendor) (hl : l ≠ []) :
    ∃ m, minPriceOf l = some m ∧ (∃ v ∈ l, v.price = m) ∧ ∀ v ∈ l, m ≤ v.price := by
  match l with
  | [] => exact absurd rfl hl
  | v :: vs =>
    refine ⟨vs.foldl (fun m w => min m w.price) v.price, by rfl, ?_, ?_⟩
    · rcases foldl_min_eq_init_or_mem vs v.price with h | ⟨w, hw, he⟩
      · exact ⟨v, List.mem_cons_self v vs, h.symm⟩
      · exact ⟨w, List.mem_cons_of_mem v hw, he.symm⟩
    · intro w hw
      rcases List.mem_cons.mp hw with rfl | hmem
      · exact foldl_min_le_init vs _
      · exact foldl_min_le_mem vs _ w hmem

theorem specLowestPool_ne_nil (p : Product) (h : p.vendors ≠ []) :
    specLowestPool p ≠ [] := by
  unfold specLowestPool
  by_cases hf : (p.vendors.filter Vendor.inStock).isEmpty = true
  · rwa [if_pos hf]
  · rw [if_neg hf]
    intro hc
    rw [hc] at hf
    exact hf rfl

theorem displayedLowestPrice_mem (cmp : String → String → Ordering) (p : Product)
    (h : p.vendors ≠ []) :
    ∃ v ∈ p.vendors, displayedLowestPrice cmp false p = v.price := by
  unfold displayedLowestPrice sortedVendors
  rcases hs : jsSort (vendorSortLe cmp) (if false = true then p.vendors.filter Vendor.inStock else p.vendors) with _ | ⟨v, rest⟩
  · exfalso
    apply h
    have hlen := length_jsSort (vendorSortLe cmp)
      (if false = true then p.vendors.filter Vendor.inStock else p.vendors)
    rw [hs] at hlen
    simp only [if_neg (by simp : ¬(false = true))] at hlen
    exact List.length_eq_zero.mp hlen.symm
  · refine ⟨v, ?_, rfl⟩
    have hv : v ∈ jsSort (vendorSortLe cmp)
        (if false = true then p.vendors.filter Vendor.inStock else p.vendors) := by
      rw [hs]
      exact List.mem_cons_self v rest
    rw [mem_jsSort] at hv
    simpa using hv

/-! ### Claim theorems -/

/-- C7: for every snapshot document conforming to the JSON contract —
products, items, product price-history, item price-history and run
statistics — serializing the structure and re-reading it through the
schema validators reproduces the same structure, with no information
loss. -/
theorem snapshot_documents_roundtrip :
    ∀ (pd : ProductsData) (td : TrackerDataResponse) (its : ItemsData)
      (ihd : ItemHistoryData) (st : Stats),
      parseProductsData (productsDataToJson pd) = some pd ∧
      parseTrackerDataResponse (trackerDataResponseToJson td) = some td ∧
      parseItemsData (itemsDataToJson its) = some its ∧
      parseItemHistoryData (itemHistoryDataToJson ihd) = some ihd ∧
      parseStats (statsToJson st) = some st :=
  fun pd td its ihd st =>
    ⟨productsData_roundtrip pd, trackerDataResponse_roundtrip td,
      itemsData_roundtrip its, itemHistoryData_roundtrip ihd, stats_roundtrip st⟩

/-- C10 (amended): `comparePrices a b = 0` iff `pricesEqual a b`, and
`comparePrices` orders `a` and `b` exactly as the integers
`Math.round(a*100)` and `Math.round(b*100)` are ordered, so two prices
whose amounts in cents round to the same integer are treated as equal at
the public interface. -/
theorem comparePrices_orders_by_rounded_cents :
    ∀ a b : ℚ,
      (comparePrices a b = 0 ↔ pricesEqual a b = true) ∧
      (comparePrices a b = -1 ↔ jsRound (a * 100) < jsRound (b * 100)) ∧
      (comparePrices a b = 1 ↔ jsRound (b * 100) < jsRound (a * 100)) := by
  intro a b
  unfold comparePrices pricesEqual
  rcases lt_trichotomy (jsRound (a * 100)) (jsRound (b * 100)) with h | h | h
  · rw [if_pos h]
    refine ⟨⟨fun hx => absurd hx (by decide), fun hx => ?_⟩,
      ⟨fun _ => h, fun _ => rfl⟩,
      ⟨fun hx => absurd hx (by decide), fun hx => absurd hx (by omega)⟩⟩
    rw [beq_iff_eq] at hx
    omega
  · rw [if_neg (by omega), if_neg (by omega)]
    refine ⟨⟨fun _ => by rw [beq_iff_eq]; exact h, fun _ => rfl⟩,
      ⟨fun hx => absurd hx (by decide), fun hx => absurd hx (by omega)⟩,
      ⟨fun hx => absurd hx (by decide), fun hx => absurd hx (by omega)⟩⟩
  · rw [if_neg (by omega), if_pos h]
    refine ⟨⟨fun hx => absurd hx (by decide), fun hx => ?_⟩,
      ⟨fun hx => absurd hx (by decide), fun hx => absurd hx (by omega)⟩,
      ⟨fun _ => h, fun _ => rfl⟩⟩
    rw [beq_iff_eq] at hx
    omega

/-- C10 counterexample: the prices 1.004 and 1.006 differ by less than
half a cent yet are not treated as equal — they round to different cent
amounts, so `comparePrices` orders them strictly. -/
theorem comparePrices_half_cent_counterexample :
    |(1004 : ℚ)/1000 - 1006/1000| < 1/200 ∧
    comparePrices ((1004 : ℚ)/1000) (1006/1000) = -1 ∧
    pricesEqual ((1004 : ℚ)/1000) (1006/1000) = false := by
  refine ⟨by norm_num [abs_lt], ?_, ?_⟩
  · have ha : jsRound ((1004 : ℚ)/1000 * 100) = 100 := by
      unfold jsRound
      norm_num
    have hb : jsRound ((1006 : ℚ)/1000 * 100) = 101 := by
      unfold jsRound
      norm_num
    unfold comparePrices
    rw [ha, hb]
    norm_num
  · have ha : jsRound ((1004 : ℚ)/1000 * 100) = 100 := by
      unfold jsRound
      norm_num
    have hb : jsRound ((1006 : ℚ)/1000 * 100) = 101 := by
      unfold jsRound
      norm_num
    unfold pricesEqual
    rw [ha, hb]
    decide

/-- C2 (amended): validated history points have no `stockPrev` —
`PricePointSchema` reads only `t p rp s v prev` and drops a `stockPrev`
key — and the Svelte tracker feed detects a stock flip by comparing the
`s` readings of consecutive points; the legacy unvalidated status feed
is the one that keys off the raw `stockPrev` field. -/
theorem stock_flip_fields_and_feeds :
    (∀ r : RawPricePoint, parsePricePoint (rawPricePointToJson r) = some (dropStockPrev r)) ∧
    (∀ c p : PricePoint,
      (classifyStockPair c p = some StockFeedEvent.backInStock ↔
        pointInStock c = true ∧ pointInStock p = false) ∧
      (classifyStockPair c p = some StockFeedEvent.outOfStock ↔
        pointInStock c = false ∧ pointInStock p = true)) ∧
    (∀ (cutoff : ℚ) (entries : List RawPricePoint),
      stockChangeEntries cutoff entries =
        stockChangeEntries cutoff (entries.filter (fun e => e.stockPrev.isSome))) := by
  refine ⟨rawPoint_validates, ?_, ?_⟩
  · intro c p
    unfold classifyStockPair
    cases hc : pointInStock c <;> cases hp : pointInStock p <;> simp [hc, hp]
  · intro cutoff entries
    unfold stockChangeEntries
    induction entries with
    | nil => rfl
    | cons e rest ih =>
      by_cases hsp : e.stockPrev.isSome = true
      · have hf : List.filter (fun e => e.stockPrev.isSome) (e :: rest) =
            e :: List.filter (fun e => e.stockPrev.isSome) rest := by
          simp [List.filter_cons, hsp]
        rw [hf, List.filterMap_cons, List.filterMap_cons, ih]
      · have hf : List.filter (fun e => e.stockPrev.isSome) (e :: rest) =
            List.filter (fun e => e.stockPrev.isSome) rest := by
          simp [List.filter_cons, hsp]
        have hnone : stockChangeOfEntry cutoff e = none := by
          unfold stockChangeOfEntry
          rw [if_neg]
          simp [hsp]
        rw [hf, List.filterMap_cons, hnone, ih]

/-- C2 counterexample: a raw stock-flip point carrying `stockPrev`
validates to exactly the same `PricePoint` as one without it — the
schema has no such field — and the Svelte feed classifies the flip from
the `s` fields of two consecutive validated points, neither of which has
any `stockPrev`. -/
theorem stockPrev_stripped_counterexample :
    parsePricePoint (rawPricePointToJson ⟨100, 10, none, some false, none, none, some true⟩) =
      parsePricePoint (rawPricePointToJson ⟨100, 10, none, some false, none, none, none⟩) ∧
    parsePricePoint (rawPricePointToJson ⟨100, 10, none, some false, none, none, some true⟩) =
      some ⟨100, 10, none, some false, none, none⟩ ∧
    classifyStockPair ⟨100, 10, none, some false, none, none⟩
      ⟨50, 10, none, none, none, none⟩ = some StockFeedEvent.outOfStock :=
  ⟨rfl, rfl, rfl⟩

/-- C6 (amended): the Svelte data layer and tracker feed treat a point
with absent `s` as in stock (`s !== false`), identically to `s: true`;
the legacy status feed, however, classifies a stock-flip entry by the
truthiness of raw `s`, where an absent `s` counts as out of stock. -/
theorem stock_absent_treated_in_stock_in_feed :
    ∀ (c p : PricePoint) (t pr : ℚ) (rp : Option ℚ) (v : Option String) (prev : Option ℚ),
      pointInStock ⟨t, pr, rp, none, v, prev⟩ = true ∧
      pointInStock ⟨t, pr, rp, some true, v, prev⟩ = true ∧
      classifyStockPair ⟨t, pr, rp, none, v, prev⟩ p =
        classifyStockPair ⟨t, pr, rp, some true, v, prev⟩ p ∧
      classifyStockPair c ⟨t, pr, rp, none, v, prev⟩ =
        classifyStockPair c ⟨t, pr, rp, some true, v, prev⟩ :=
  fun _ _ _ _ _ _ _ => ⟨rfl, rfl, rfl, rfl⟩

/-- C6 counterexample: the legacy status feed's stock computation does
not treat an absent `s` like `s: true` — on a stock-flip entry it emits
"out-of-stock" when `s` is absent but "back-in-stock" when `s` is true. -/
theorem stock_absent_truthiness_counterexample :
    stockChangeOfEntry 0 ⟨1767200000, 10, none, none, none, none, some false⟩ =
      some ⟨"out-of-stock", 1767200000, 10⟩ ∧
    stockChangeOfEntry 0 ⟨1767200000, 10, none, some true, none, none, some false⟩ =
      some ⟨"back-in-stock", 1767200000, 10⟩ := by
  constructor <;>
    · unfold stockChangeOfEntry
      rw [if_pos]
      · rfl
      · simp only [Option.isSome_some, Bool.true_and, Bool.and_eq_true,
          decide_eq_true_eq, stockBaselineLegacy]
        norm_num

/-- C3: for every history series maintained by the tracker (modelled
from the spec, §4.2), a cycle run at a time later than every recorded
point preserves strictly increasing timestamps — hence no duplicate
timestamps either. -/
theorem tracker_timestamps_strictly_increasing (now : ℚ)
    (series : List RawPricePoint) (st : ListingState)
    (h1 : (series.map RawPricePoint.t).Pairwise (· < ·))
    (h2 : ∀ q ∈ series, q.t < now) :
    ((trackListing now series st).map RawPricePoint.t).Pairwise (· < ·) := by
  unfold trackListing
  rcases hlast : series.getLast? with _ | last
  · exact pairwise_t_sublist _ _ (List.filter_sublist _)
      (pairwise_lt_t_append series _ h1 (fun q hq => h2 q hq))
  · by_cases hs : sameListingState last st = true
    · simp only [hs, if_true]
      exact h1
    · simp only [hs, if_false]
      exact pairwise_t_sublist _ _ (List.filter_sublist _)
        (pairwise_lt_t_append series _ h1 (fun q hq => h2 q hq))

theorem tracker_timestamps_strictly_increasing_witness :
    (([⟨100, 10, none, some true, none, none, none⟩,
       ⟨150, 12, none, some true, none, none, some 10⟩] : List RawPricePoint).map
        RawPricePoint.t).Pairwise (· < ·) ∧
    (∀ q ∈ ([⟨100, 10, none, some true, none, none, none⟩,
       ⟨150, 12, none, some true, none, none, some 10⟩] : List RawPricePoint), q.t < 200) ∧
    ((trackListing 200
        [⟨100, 10, none, some true, none, none, none⟩,
         ⟨150, 12, none, some true, none, none, some 10⟩]
        ⟨20, none, true⟩).map RawPricePoint.t).Pairwise (· < ·) := by
  have hp : (([⟨100, 10, none, some true, none, none, none⟩,
      ⟨150, 12, none, some true, none, none, some 10⟩] : List RawPricePoint).map
        RawPricePoint.t).Pairwise (· < ·) := by
    norm_num [List.pairwise_cons]
  have hb : ∀ q ∈ ([⟨100, 10, none, some true, none, none, none⟩,
      ⟨150, 12, none, some true, none, none, some 10⟩] : List RawPricePoint), q.t < 200 := by
    intro q hq
    rcases List.mem_cons.mp hq with rfl | hq
    · norm_num
    · rcases List.mem_cons.mp hq with rfl | hq
      · norm_num
      · cases hq
  exact ⟨hp, hb, tracker_timestamps_strictly_increasing 200 _ ⟨20, none, true⟩ hp hb⟩

/-- C4: the tracker's per-cycle append is idempotent (modelled from the
spec, §4.2): when the listing state equals the last recorded point
within cent-level tolerance the cycle writes nothing, and re-running the
tracker on an identical successive snapshot is a no-op on the second
run. -/
theorem tracker_append_idempotent (now now2 : ℚ) (series : List RawPricePoint)
    (st : ListingState) :
    (∀ last, series.getLast? = some last → sameListingState last st = true →
      trackListing now series st = series) ∧
    trackListing now2 (trackListing now series st) st = trackListing now series st := by
  constructor
  · intro last hl hs
    exact trackListing_unchanged now series st last hl hs
  · rcases hlast : series.getLast? with _ | last
    · have h1 : trackListing now series st =
          pruneSeries now (series ++ [freshPoint now st none]) := by
        unfold trackListing
        rw [hlast]
      rw [h1]
      exact trackListing_unchanged now2 _ st _ (getLast_prune_concat now series st none)
        (sameListingState_fresh now st none)
    · by_cases hs : sameListingState last st = true
      · rw [trackListing_unchanged now series st last hlast hs]
        exact trackListing_unchanged now2 series st last hlast hs
      · have h1 : trackListing now series st =
            pruneSeries now (series ++ [freshPoint now st (some last)]) := by
          unfold trackListing
          rw [hlast]
          simp only [hs, if_false]
          rfl
        rw [h1]
        exact trackListing_unchanged now2 _ st _
          (getLast_prune_concat now series st (some last))
          (sameListingState_fresh now st (some last))

theorem tracker_append_idempotent_witness :
    (([⟨100, 10, none, some true, none, none, none⟩] : List RawPricePoint).getLast? =
      some ⟨100, 10, none, some true, none, none, none⟩) ∧
    sameListingState ⟨100, 10, none, some true, none, none, none⟩ ⟨10, none, true⟩ = true ∧
    trackListing 300 [⟨100, 10, none, some true, none, none, none⟩] ⟨10, none, true⟩ =
      [⟨100, 10, none, some true, none, none, none⟩] ∧
    trackListing 400 (trackListing 300 [] (⟨10, none, true⟩ : ListingState)) ⟨10, none, true⟩ =
      trackListing 300 [] ⟨10, none, true⟩ := by
  have hsame : sameListingState ⟨100, 10, none, some true, none, none, none⟩
      (⟨10, none, true⟩ : ListingState) = true := by
    unfold sameListingState pricesEqual optPricesEqual rawInStock jsRound
    norm_num
  refine ⟨rfl, hsame, ?_, ?_⟩
  · exact (tracker_append_idempotent 300 0 _ _).1 _ rfl hsame
  · exact (tracker_append_idempotent 300 400 [] ⟨10, none, true⟩).2

/-- C5: SKU equality dominates fuzzy matching in identity resolution
(modelled from the spec, §4.1): two listings with equal usable
normalized SKUs always resolve to the same product group, whatever the
similarity measure, titles or categories. -/
theorem sku_equality_dominates_resolution (sim : Listing → Listing → Bool)
    (minSkuLen : Nat) (listings : List Listing) (l₁ l₂ : Listing) (s₁ s₂ : String)
    (_h₁ : l₁ ∈ listings) (_h₂ : l₂ ∈ listings)
    (hs₁ : l₁.sku = some s₁) (hs₂ : l₂.sku = some s₂)
    (hn : normalizeSku s₁ = normalizeSku s₂)
    (hu : (usableSkuOf minSkuLen l₁).isSome = true) :
    productGroupOf sim minSkuLen listings l₁ = productGroupOf sim minSkuLen listings l₂ := by
  have hcond : (!(normalizeSku s₁ == "") &&
      decide (minSkuLen ≤ (normalizeSku s₁).length)) = true := by
    simp only [usableSkuOf, hs₁] at hu
    by_cases hc : (!(normalizeSku s₁ == "") &&
        decide (minSkuLen ≤ (normalizeSku s₁).length)) = true
    · exact hc
    · rw [if_neg hc] at hu
      cases hu
  have h1 : usableSkuOf minSkuLen l₁ = some (normalizeSku s₁) := by
    simp only [usableSkuOf, hs₁]
    rw [if_pos hcond]
  have h2 : usableSkuOf minSkuLen l₂ = some (normalizeSku s₂) := by
    simp only [usableSkuOf, hs₂]
    rw [← hn, if_pos hcond]
  simp only [productGroupOf, h1, h2, hn]

theorem sku_equality_dominates_resolution_witness :
    demoListingA ∈ [demoListingA, demoListingB] ∧
    demoListingB ∈ [demoListingA, demoListingB] ∧
    demoListingA.sku = some "AB-C 12" ∧
    demoListingB.sku = some "abc12" ∧
    normalizeSku "AB-C 12" = normalizeSku "abc12" ∧
    (usableSkuOf 3 demoListingA).isSome = true ∧
    productGroupOf (fun _ _ => false) 3 [demoListingA, demoListingB] demoListingA =
      productGroupOf (fun _ _ => false) 3 [demoListingA, demoListingB] demoListingB := by
  refine ⟨List.mem_cons_self _ _, List.mem_cons_of_mem _ (List.mem_cons_self _ _),
    rfl, rfl, by decide, by decide, ?_⟩
  exact sku_equality_dominates_resolution (fun _ _ => false) 3 [demoListingA, demoListingB]
    demoListingA demoListingB "AB-C 12" "abc12"
    (List.mem_cons_self _ _) (List.mem_cons_of_mem _ (List.mem_cons_self _ _))
    rfl rfl (by decide) (by decide)

/-- C8: for a non-empty query with no extended-search operator, if some
product's normalized search text contains every query word of length at
least two, then `searchProducts` returns exactly the products satisfying
that containment, in input order, and the Fuse.js fallback (an arbitrary
`fuse` function here) is never consulted. -/
theorem word_search_returns_exact_matches
    (fuse : List Product → String → List Product) (products : List Product)
    (query : String) (h1 : jsTrim query ≠ "")
    (h2 : hasExtendedOperators (jsTrim query) = false)
    (h3 : ∃ p ∈ products, matchesAllWords (jsTrim query) p = true) :
    searchProducts fuse products query =
      products.filter (matchesAllWords (jsTrim query)) := by
  obtain ⟨p0, hp0, hm0⟩ := h3
  simp only [searchProducts]
  rw [if_neg h1]
  rw [if_neg (show ¬(hasExtendedOperators (jsTrim query) = true) by simp [h2])]
  by_cases he : (searchWordsOf (jsTrim query)).isEmpty = true
  · rw [wordBasedSearch_eq_all products _ he]
    have hne : products.isEmpty = false := by
      rcases products with _ | ⟨a, l⟩
      · cases hp0
      · rfl
    rw [if_neg (by simp [hne])]
    symm
    apply List.filter_eq_self.mpr
    intro a _
    exact matchesAllWords_of_no_words _ a he
  · have hfil := wordBasedSearch_eq_filter products (jsTrim query) (by
      cases hb : (searchWordsOf (jsTrim query)).isEmpty
      · rfl
      · exact absurd hb he)
    rw [hfil]
    have hene : (products.filter (matchesAllWords (jsTrim query))).isEmpty = false := by
      have hmem : p0 ∈ products.filter (matchesAllWords (jsTrim query)) :=
        List.mem_filter.mpr ⟨hp0, hm0⟩
      rcases hx : products.filter (matchesAllWords (jsTrim query)) with _ | _
      · rw [hx] at hmem
        cases hmem
      · rfl
    rw [if_neg (by simp [hene])]

theorem word_search_returns_exact_matches_witness :
    jsTrim " M4 " ≠ "" ∧
    hasExtendedOperators (jsTrim " M4 ") = false ∧
    (∃ p ∈ [demoProduct], matchesAllWords (jsTrim " M4 ") p = true) ∧
    searchProducts demoFuse [demoProduct] " M4 " =
      [demoProduct].filter (matchesAllWords (jsTrim " M4 ")) := by
  refine ⟨by decide, by decide, ⟨demoProduct, List.mem_cons_self _ _, by decide⟩, ?_⟩
  exact word_search_returns_exact_matches demoFuse [demoProduct] " M4 "
    (by decide) (by decide) ⟨demoProduct, List.mem_cons_self _ _, by decide⟩

/-- C9: every product returned by `filterProducts` satisfies each active
filter predicate — category membership, some vendor in the selected
stores, the price bounds on `lowestPrice`, stock, and a vendor on sale —
and the result is a (reordered) subset of the input, provided the
Fuse.js search returns elements of its input. -/
theorem filterProducts_satisfies_active_filters
    (fuse : List Product → String → List Product) (cmpStr : String → String → Ordering)
    (filters : FilterState) (products : List Product) (p : Product)
    (hfuse : ∀ ps q, ∀ x ∈ fuse ps q, x ∈ ps)
    (hp : p ∈ filterProducts fuse cmpStr products filters) :
    p ∈ products ∧
    (filters.categories ≠ [] → filters.categories.contains p.category = true) ∧
    (filters.stores ≠ [] → ∃ v ∈ p.vendors, filters.stores.contains v.name = true) ∧
    (∀ m, filters.minPrice = some m → m ≤ p.lowestPrice) ∧
    (∀ m, filters.maxPrice = some m → p.lowestPrice ≤ m) ∧
    (filters.inStockOnly = true → p.inStock = true) ∧
    (filters.onSaleOnly = true →
      ∃ v ∈ p.vendors, ∃ rp, v.regularPrice = some (some rp) ∧ v.price < rp) := by
  unfold filterProducts at hp
  rw [mem_sortProducts] at hp
  obtain ⟨hp, hsale⟩ := mem_applyOnSaleFilter _ _ _ hp
  obtain ⟨hp, hstock⟩ := mem_applyInStockFilter _ _ _ hp
  obtain ⟨hp, hmax⟩ := mem_applyMaxPriceFilter _ _ _ hp
  obtain ⟨hp, hmin⟩ := mem_applyMinPriceFilter _ _ _ hp
  obtain ⟨hp, hstore⟩ := mem_applyStoreFilter _ _ _ hp
  obtain ⟨hp, hcat⟩ := mem_applyCategoryFilter _ _ _ hp
  exact ⟨mem_applySearchFilter fuse hfuse filters products p hp, hcat, hstore,
    hmin, hmax, hstock, hsale⟩

theorem filterProducts_satisfies_active_filters_witness :
    (∀ ps q, ∀ x ∈ demoFuse ps q, x ∈ ps) ∧
    demoProduct ∈ filterProducts demoFuse strOrd [demoProduct] demoFilters ∧
    (demoProduct ∈ [demoProduct] ∧
      (demoFilters.categories ≠ [] →
        demoFilters.categories.contains demoProduct.category = true) ∧
      (demoFilters.stores ≠ [] →
        ∃ v ∈ demoProduct.vendors, demoFilters.stores.contains v.name = true) ∧
      (∀ m, demoFilters.minPrice = some m → m ≤ demoProduct.lowestPrice) ∧
      (∀ m, demoFilters.maxPrice = some m → demoProduct.lowestPrice ≤ m) ∧
      (demoFilters.inStockOnly = true → demoProduct.inStock = true) ∧
      (demoFilters.onSaleOnly = true →
        ∃ v ∈ demoProduct.vendors, ∃ rp, v.regularPrice = some (some rp) ∧ v.price < rp)) := by
  have hfuse : ∀ ps q, ∀ x ∈ demoFuse ps q, x ∈ ps :=
    fun ps q x hx => absurd hx (List.not_mem_nil x)
  have hp : demoProduct ∈ filterProducts demoFuse strOrd [demoProduct] demoFilters :=
    List.mem_cons_self demoProduct []
  exact ⟨hfuse, hp,
    filterProducts_satisfies_active_filters demoFuse strOrd demoFilters [demoProduct]
      demoProduct hfuse hp⟩

/-- C1 (amended): `Product.lowestPrice` follows the spec rule — the
minimum price over the in-stock vendors, else over all vendors — but the
price the product list item shows as lowest is the head price of its
tolerance-sorted vendor list, which with the in-stock-only filter off
ranges over all vendors: it is some member vendor's price, and can be an
out-of-stock vendor's price below the rule's value. -/
theorem lowestPrice_rule_and_displayed_price (p : Product)
    (cmp : String → String → Ordering) (hv : p.vendors ≠ []) :
    (∃ m, specLowestPrice p = some m ∧ (∃ v ∈ specLowestPool p, v.price = m) ∧
      (∀ v ∈ specLowestPool p, m ≤ v.price)) ∧
    (∃ v ∈ p.vendors, displayedLowestPrice cmp false p = v.price) := by
  constructor
  · obtain ⟨m, hm, hmem, hle⟩ := minPriceOf_spec (specLowestPool p) (specLowestPool_ne_nil p hv)
    exact ⟨m, hm, hmem, hle⟩
  · exact displayedLowestPrice_mem cmp p hv

theorem lowestPrice_rule_and_displayed_price_witness :
    demoProduct.vendors ≠ [] ∧
    ((∃ m, specLowestPrice demoProduct = some m ∧
        (∃ v ∈ specLowestPool demoProduct, v.price = m) ∧
        (∀ v ∈ specLowestPool demoProduct, m ≤ v.price)) ∧
      (∃ v ∈ demoProduct.vendors, displayedLowestPrice strOrd false demoProduct = v.price)) := by
  have hv : demoProduct.vendors ≠ [] := by simp [demoProduct]
  exact ⟨hv, lowestPrice_rule_and_displayed_price demoProduct strOrd hv⟩

/-- C1 counterexample: for a product whose cheapest vendor is out of
stock while another is in stock, `lowestPrice` per the spec rule is the
in-stock minimum (50), but the list item shows the out-of-stock vendor's
40 — the price shown as lowest does not agree with the rule. -/
theorem displayed_price_ignores_stock_counterexample :
    specLowestPrice demoProduct = some demoProduct.lowestPrice ∧
    demoProduct.lowestPrice = 50 ∧
    displayedLowestPrice strOrd false demoProduct = 40 ∧
    (40 : ℚ) ≠ 50 := by
  refine ⟨?_, rfl, ?_, by norm_num⟩
  · norm_num [specLowestPrice, specLowestPool, minPriceOf, demoProduct,
      demoVendorA, demoVendorB]
  · norm_num [displayedLowestPrice, sortedVendors, jsSort, insertSorted,
      vendorSortLe, demoProduct, demoVendorA, demoVendorB, strOrd]

end GSAU
